import Mathlib

/-!
Verification development for the DropTesterPro bottle drop-test analyzer.

The embedding models the analysis engine (`src/analysis.py`), the operator
override feedback step (`src/app.py`, `_override_analysis`), the recording
pacing loop and the per-camera frame queue (`src/camera.py`), and the
threshold-config loader (`src/utils.py`).

Frames are abstracted by the data OpenCV extracts from them: a frame is the
list of external contours found by `cv2.findContours` after the fixed
gray/blur/Canny preprocessing, and each contour records its point list
(`CHAIN_APPROX_SIMPLE`), its `cv2.contourArea` value and its
`cv2.boundingRect` value.  Python floats are modelled as rationals.
-/

namespace DropTester

/-- `cv2.boundingRect` output: x, y of the top-left corner, width, height.
All components are nonnegative machine integers. -/
structure Rect where
  x : ℕ
  y : ℕ
  w : ℕ
  h : ℕ
deriving DecidableEq

/-- One contour as returned by `cv2.findContours`, together with the values
`cv2.contourArea` and `cv2.boundingRect` report for it. -/
structure Contour where
  pts : List (ℤ × ℤ)
  area : ℚ
  rect : Rect
deriving DecidableEq

/-- A (non-null) frame, abstracted by its extracted external contour list. -/
abbrev Frame := List Contour

/-- The four persisted analysis thresholds (`utils.load_analysis_config`). -/
structure AnalysisConfig where
  deformation_threshold : ℚ
  spill_min_area : ℚ
  shatter_contour_increase_ratio : ℚ
  shatter_min_contour_count : ℚ
deriving DecidableEq

/-- The `result` field of an analysis record. -/
inductive Verdict
  | PASS
  | FAIL
  | ERROR
deriving DecidableEq

/-- An analysis record: `result`, optional `metric` name, optional `value`
(the `reason` text is not modelled). ERROR records carry no metric/value. -/
structure AnalysisResult where
  result : Verdict
  metric : Option String
  value : Option ℚ
deriving DecidableEq

/-- `max(contours, key=cv2.contourArea)`: the first contour of maximal area
(Python `max` keeps the earliest element on ties). -/
def largestContour (f : Frame) : Option Contour :=
  match f with
  | [] => none
  | c :: rest => some (rest.foldl (fun best x => if x.area > best.area then x else best) c)

/-- Bounding-box aspect ratio `w / h if h > 0 else 0` of a contour. -/
def aspectRatioOf (c : Contour) : ℚ :=
  if c.rect.h > 0 then (c.rect.w : ℚ) / (c.rect.h : ℚ) else 0

/-- `_get_main_contour` (analysis.py): the largest contour of the frame,
rejected as noise when its area is below 200, together with the aspect ratio
of its bounding box (0 when no contour qualifies).  The `frame is None`
branch of the source is handled at the `analyze_bottle` level, which guards
null frames before either pipeline runs. -/
def getMainContour (f : Frame) : Option Contour × ℚ :=
  match largestContour f with
  | none => (none, 0)
  | some m =>
    if m.area < 200 then (none, 0)
    else (some m, aspectRatioOf m)

/-- The shatter pipeline's noise filter: contours with area above 75
(`min_contour_area = 75`, strict comparison). -/
def filteredContours (f : Frame) : List Contour :=
  f.filter (fun c => c.area > 75)

/-- `analyze_shatter` (analysis.py lines 35-77): ERROR when no main contour
is present before impact; otherwise FAIL iff the filtered contour count
ratio exceeds the configured threshold and the after-count reaches the
configured minimum, with metric `shatter_ratio` and value the ratio. -/
def analyze_shatter (frame_before frame_after : Frame) (config : AnalysisConfig) :
    AnalysisResult :=
  match (getMainContour frame_before).1 with
  | none => ⟨.ERROR, none, none⟩
  | some _ =>
    let count_before0 := (filteredContours frame_before).length
    let count_after := (filteredContours frame_after).length
    let count_before := if count_before0 = 0 then 1 else count_before0
    let contour_increase_ratio : ℚ := (count_after : ℚ) / (count_before : ℚ)
    if contour_increase_ratio > config.shatter_contour_increase_ratio ∧
        (count_after : ℚ) ≥ config.shatter_min_contour_count then
      ⟨.FAIL, some "shatter_ratio", some contour_increase_ratio⟩
    else
      ⟨.PASS, some "shatter_ratio", some contour_increase_ratio⟩

/-- Spill-candidate test from the loop of `analyze_deformation` (analysis.py
lines 117-134): the contour is not (structurally) the bottle's own contour,
its area lies strictly between `spill_min_area` and half the bottle's area,
and its bounding-box top edge lies below 60 percent of the bottle's
vertical extent. -/
def isSpillCandidate (config : AnalysisConfig) (bottle : Contour) (c : Contour) : Bool :=
  !(decide (c.pts = bottle.pts)) &&
    decide (c.area > config.spill_min_area) &&
    decide (c.area < bottle.area * (1 / 2)) &&
    decide ((c.rect.y : ℚ) > (bottle.rect.y : ℚ) + (bottle.rect.h : ℚ) * (6 / 10))

/-- The spill-detection scan of `analyze_deformation`: fold over the after
frame's contours counting spill candidates and tracking the largest
candidate area (both start at 0, the maximum is updated on strict
increase). -/
def spillScan (config : AnalysisConfig) (bottle : Contour) (cs : List Contour) : ℕ × ℚ :=
  cs.foldl
    (fun (st : ℕ × ℚ) c =>
      if isSpillCandidate config bottle c then
        (st.1 + 1, if c.area > st.2 then c.area else st.2)
      else st)
    (0, 0)

/-- `analyze_deformation` (analysis.py lines 79-142): ERROR when either
frame lacks a qualifying main contour; FAIL on aspect-ratio change above
the deformation threshold (immediately, metric `deformation`); otherwise
FAIL on any spill candidate (metric `spill_area`, value the largest
candidate area); otherwise PASS (metric `deformation`). -/
def analyze_deformation (frame_before frame_after : Frame) (config : AnalysisConfig) :
    AnalysisResult :=
  match (getMainContour frame_before).1, (getMainContour frame_after).1 with
  | none, _ => ⟨.ERROR, none, none⟩
  | some _, none => ⟨.ERROR, none, none⟩
  | some _, some contour_after =>
    let ratio_before := (getMainContour frame_before).2
    let ratio_after := (getMainContour frame_after).2
    let ratio_change : ℚ :=
      if ratio_before > 0 then |ratio_after - ratio_before| / ratio_before else 0
    if ratio_change > config.deformation_threshold then
      ⟨.FAIL, some "deformation", some ratio_change⟩
    else if frame_after = [] then
      ⟨.PASS, some "deformation", some ratio_change⟩
    else
      let scan := spillScan config contour_after frame_after
      if scan.1 > 0 then
        ⟨.FAIL, some "spill_area", some scan.2⟩
      else
        ⟨.PASS, some "deformation", some ratio_change⟩

/-- `analyze_bottle` (analysis.py lines 144-157): null-frame guard, then
dispatch on the material string (the OpenCV-availability guard is outside
the model: we model the environment in which OpenCV imports). -/
def analyze_bottle (frame_before frame_after : Option Frame) (material_type : String)
    (config : AnalysisConfig) : AnalysisResult :=
  match frame_before, frame_after with
  | some fb, some fa =>
    if material_type = "Plastic" ∨ material_type = "Steel" then
      analyze_deformation fb fa config
    else
      analyze_shatter fb fa config
  | _, _ => ⟨.ERROR, none, none⟩

/-- Outcome of the override learning step: the (possibly updated) config,
and whether `save_analysis_config` was called. -/
structure OverrideOutcome where
  config : AnalysisConfig
  saved : Bool
deriving DecidableEq

/-- The learning block of `_override_analysis` (app.py lines 846-879),
reached when the operator's corrected result disagrees with the recorded
one.  `metric` and `value` come from the recorded analysis dict (absent
keys read as `none`; an empty metric string is falsy in Python).  The
matched threshold is SET to `value * 1.1` (FAIL corrected to PASS) or to
`value * 0.9` (PASS corrected to FAIL); the config is saved exactly when an
adjustment was made. -/
def overrideAdjust (config : AnalysisConfig) (result correct_result : Verdict)
    (metric : Option String) (value : Option ℚ) : OverrideOutcome :=
  match metric, value with
  | some m, some v =>
    if m = "" then ⟨config, false⟩
    else if result = .FAIL ∧ correct_result = .PASS then
      if m = "deformation" then
        ⟨{ config with deformation_threshold := v * (11 / 10) }, true⟩
      else if m = "spill_area" then
        ⟨{ config with spill_min_area := v * (11 / 10) }, true⟩
      else if m = "shatter_ratio" then
        ⟨{ config with shatter_contour_increase_ratio := v * (11 / 10) }, true⟩
      else ⟨config, false⟩
    else if result = .PASS ∧ correct_result = .FAIL then
      if m = "deformation" then
        ⟨{ config with deformation_threshold := v * (9 / 10) }, true⟩
      else if m = "spill_area" then
        ⟨{ config with spill_min_area := v * (9 / 10) }, true⟩
      else if m = "shatter_ratio" then
        ⟨{ config with shatter_contour_increase_ratio := v * (9 / 10) }, true⟩
      else ⟨config, false⟩
    else ⟨config, false⟩
  | _, _ => ⟨config, false⟩

/-- Mutable state of the real-time pacing logic in `DualCameraRecorder._loop`
(camera.py lines 362-364): the fractional accumulator `write_accum` and the
running total `total_written`. -/
structure PacingState where
  write_accum : ℚ
  total_written : ℕ
deriving DecidableEq

/-- Python `int()` on a float: truncation toward zero. -/
def pyInt (q : ℚ) : ℤ :=
  if q < 0 then -(Int.floor (-q)) else Int.floor q

/-- One iteration of the write-pacing block (camera.py lines 408-420):
`dt = max(0, now - last)`; the accumulator gains `writer_fps * dt`;
`count = int(write_accum)`, forced to 1 on the very first write when it
truncates to zero; when `count > 0` that many duplicate copies are written
and the accumulator is decremented by `count`.  Returns the new state and
the number of copies written this iteration. -/
def pacingStep (writer_fps : ℚ) (s : PacingState) (dt_raw : ℚ) : PacingState × ℕ :=
  let dt := max 0 dt_raw
  let accum := s.write_accum + writer_fps * dt
  let count0 := pyInt accum
  let count := if s.total_written = 0 ∧ count0 = 0 then 1 else count0
  if count > 0 then
    (⟨accum - (count : ℚ), s.total_written + count.toNat⟩, count.toNat)
  else
    (⟨accum, s.total_written⟩, 0)

/-- A whole recording session's pacing run over the per-iteration wall-clock
deltas, starting from `write_accum = 0.0`, `total_written = 0`. -/
def pacingRun (writer_fps : ℚ) (dts : List ℚ) : PacingState :=
  dts.foldl (fun s dt => (pacingStep writer_fps s dt).1) ⟨0, 0⟩

/-- One `put` of `CameraWorker.run` (camera.py lines 124-137) as seen by the
single producer with no concurrent consumer: `put_nowait` succeeds while
the queue holds fewer than `N` frames; on a full queue the oldest frame is
removed with `get_nowait` and the new frame inserted (the `queue.Empty`
race branch is unreachable without a concurrent consumer). -/
def queuePush (N : ℕ) (q : List α) (x : α) : List α :=
  if q.length < N then q ++ [x] else q.drop 1 ++ [x]

/-- A sequence of producer pushes, oldest first. -/
def queuePushAll (N : ℕ) (q : List α) (xs : List α) : List α :=
  xs.foldl (queuePush N) q

/-- A recorded clip as the impact locator sees it through OpenCV: `total` is
`int(cap.get(cv2.CAP_PROP_FRAME_COUNT))`; `read i` is `read_at(i)` (`none`
when the read fails or yields a null frame; `cap` reads are deterministic
per index); `gray` is the blurred-grayscale conversion `to_gray`; and
`diffMean cur prev` is `float(cv2.absdiff(cur, prev).mean())`. -/
structure VideoModel (φ γ : Type) where
  total : ℕ
  read : ℕ → Option φ
  gray : φ → γ
  diffMean : γ → γ → ℚ

/-- Python `range(start, stop + 1, stride)` over naturals, `stride ≥ 1`. -/
def pyRangeIncl (start stop stride : ℕ) : List ℕ :=
  if start ≤ stop then List.range' start ((stop - start) / stride + 1) stride else []

/-- Running state of a motion-energy scan pass: the best score so far, its
frame index, and the previous (gray) frame for differencing. -/
structure ScanState (γ : Type) where
  best_score : ℚ
  best_idx : ℕ
  prev_g : γ

/-- One loop iteration of a scan pass (analysis.py lines 215-224 and
236-245): a failed read is skipped; otherwise the frame is scored against
the previous gray frame and the argmax updated on strict improvement; the
previous gray frame always becomes the current one. -/
def scanStep (v : VideoModel φ γ) (st : ScanState γ) (idx : ℕ) : ScanState γ :=
  match v.read idx with
  | none => st
  | some cur =>
    let cur_g := v.gray cur
    let score := v.diffMean cur_g st.prev_g
    if score > st.best_score then ⟨score, idx, cur_g⟩
    else ⟨st.best_score, st.best_idx, cur_g⟩

/-- The seed frame of a scan pass (analysis.py lines 210-212 and 231-233):
read the frame before the scan start, falling back to the start frame
itself; `none` means both reads failed, on which `to_gray(None)` raises
inside OpenCV. -/
def initPrev (v : VideoModel φ γ) (i : ℕ) : Option φ :=
  match v.read (i - 1) with
  | some f => some f
  | none => v.read i

/-- The peak-finding part of `pick_impact_frames` (analysis.py lines
178-245): open/length guards, scan-range computation, coarse strided pass,
then the fine single-stride pass around the coarse argmax.  Failure
messages stand for the exceptions the source raises. -/
def findPeak (vo : Option (VideoModel φ γ)) (coarse_stride refine_window ignore_edge : ℕ) :
    Except String ℕ :=
  let stride := if coarse_stride < 1 then 1 else coarse_stride
  match vo with
  | none => .error "Cannot open video"
  | some v =>
    if v.total ≤ 2 then .error "Video too short"
    else
      let start_idx0 := max 1 ignore_edge
      let end_idx0 := max (start_idx0 + 1) (v.total - 1 - ignore_edge)
      let start_idx := if start_idx0 ≥ end_idx0 then 1 else start_idx0
      let end_idx := if start_idx0 ≥ end_idx0 then v.total - 1 else end_idx0
      match initPrev v start_idx with
      | none => .error "cvtColor failed on null frame"
      | some prev =>
        let st0 : ScanState γ := ⟨-1, start_idx, v.gray prev⟩
        let stC := (pyRangeIncl start_idx end_idx stride).foldl (scanStep v) st0
        let win_lo := max 1 (stC.best_idx - refine_window)
        let win_hi := min (v.total - 1) (stC.best_idx + refine_window)
        match initPrev v win_lo with
        | none => .error "cvtColor failed on null frame"
        | some prevF =>
          let stF0 : ScanState γ := ⟨-1, stC.best_idx, v.gray prevF⟩
          let stF := (pyRangeIncl win_lo win_hi 1).foldl (scanStep v) stF0
          .ok stF.best_idx

/-- `pick_impact_frames` (analysis.py lines 160-254): locate the motion
peak, then read the frame pair at `max(0, peak - offset_frames)` (natural
subtraction) and `min(total - 1, peak + offset_frames)`; a failed endpoint
read raises. -/
def pick_impact_frames (vo : Option (VideoModel φ γ))
    (coarse_stride refine_window ignore_edge offset_frames : ℕ) :
    Except String (φ × φ) :=
  match findPeak vo coarse_stride refine_window ignore_edge, vo with
  | .error e, _ => .error e
  | .ok _, none => .error "Cannot open video"
  | .ok peak, some v =>
    let before_idx := peak - offset_frames
    let after_idx := min (v.total - 1) (peak + offset_frames)
    match v.read before_idx, v.read after_idx with
    | some fb, some fa => .ok (fb, fa)
    | _, _ => .error "Failed to read before and after frames"

/-- A threshold-config JSON dict as loaded from disk: each of the four keys
may be absent. -/
structure ConfigDict where
  deformation_threshold : Option ℚ
  spill_min_area : Option ℚ
  shatter_contour_increase_ratio : Option ℚ
  shatter_min_contour_count : Option ℚ
deriving DecidableEq

/-- The built-in defaults of `load_analysis_config` (utils.py lines 12-17),
as a dict holding all four keys. -/
def defaultsDict : ConfigDict :=
  ⟨some (3 / 20), some 400, some 2, some 5⟩

/-- The backfill loop of `load_analysis_config` (utils.py lines 39-41):
every absent key is added with its default value. -/
def backfill (d : ConfigDict) : ConfigDict :=
  ⟨some (d.deformation_threshold.getD (3 / 20)),
   some (d.spill_min_area.getD 400),
   some (d.shatter_contour_increase_ratio.getD 2),
   some (d.shatter_min_contour_count.getD 5)⟩

/-- State of one config file on disk: absent, unparsable, or a valid JSON
dict. -/
inductive FileState
  | missing
  | corrupt
  | valid (d : ConfigDict)
deriving DecidableEq

/-- `load_analysis_config` (utils.py lines 10-44) over the states of the
primary and backup files.  Returns the config the call returns and, when
`save_analysis_config` is called (which writes both files), the dict it
writes.  Primary missing: restore a valid backup verbatim (saving it), else
create and return the defaults.  Primary present but unparsable: return the
defaults without saving.  Primary valid: return it with absent keys
backfilled, without saving. -/
def load_analysis_config (primary backup : FileState) : ConfigDict × Option ConfigDict :=
  match primary with
  | .missing =>
    match backup with
    | .valid config => (config, some config)
    | _ => (defaultsDict, some defaultsDict)
  | .corrupt => (defaultsDict, none)
  | .valid config => (backfill config, none)

/-! Concrete inputs used by witnesses and counterexamples. -/

/-- The built-in default thresholds as a full config. -/
def cfgDefault : AnalysisConfig := ⟨3 / 20, 400, 2, 5⟩

/-- A bottle-shaped main contour: area 300, bounding box 10 by 10. -/
def contourMainB : Contour := ⟨[(0, 0)], 300, ⟨0, 0, 10, 10⟩⟩

/-- A before frame holding one qualifying bottle contour of aspect ratio 1. -/
def fbEx : Frame := [contourMainB]

/-- A deformed after-frame contour: area 300, bounding box 12 by 10. -/
def contourDefA : Contour := ⟨[(0, 1)], 300, ⟨0, 0, 12, 10⟩⟩

/-- An after frame whose main contour has aspect ratio 12/10. -/
def faDef : Frame := [contourDefA]

/-- A large after-frame bottle contour, aspect ratio 1, area 1000. -/
def contourMainA : Contour := ⟨[(1, 1)], 1000, ⟨0, 0, 10, 10⟩⟩

/-- A spill-puddle contour: area 450, top edge at y = 50, well below the
bottle. -/
def contourSpill : Contour := ⟨[(2, 2)], 450, ⟨3, 50, 2, 2⟩⟩

/-- An after frame holding the bottle and one spill puddle. -/
def faSp : Frame := [contourMainA, contourSpill]

/-- An 8-frame synthetic clip: each frame is its own index, reads succeed
inside the clip, and the motion score spikes at frame 3. -/
def clipCE : VideoModel ℕ ℕ where
  total := 8
  read := fun i => if i < 8 then some i else none
  gray := id
  diffMean := fun c _ => if c = 3 then 100 else 0

/-- A 2-frame clip (too short to analyze). -/
def clipShort : VideoModel ℕ ℕ where
  total := 2
  read := fun i => if i < 2 then some i else none
  gray := id
  diffMean := fun _ _ => 0

/-- A 10-frame clip each of whose reads fails. -/
def clipBlank : VideoModel ℕ ℕ where
  total := 10
  read := fun _ => none
  gray := id
  diffMean := fun _ _ => 0

/-- A backup config dict holding only the deformation threshold. -/
def backupCE : ConfigDict := ⟨some (1 / 2), none, none, none⟩

/-- The maximum-tracking fold of the spill scan in isolation. -/
def maxAreaFold (cs : List Contour) (init : ℚ) : ℚ :=
  cs.foldl (fun m c => if c.area > m then c.area else m) init

/-! Helper lemmas. -/

/-- A bounding-box aspect ratio is nonnegative. -/
lemma aspectRatioOf_nonneg (c : Contour) : 0 ≤ aspectRatioOf c := by
  unfold aspectRatioOf
  split_ifs with h
  · positivity
  · exact le_refl 0

/-- The ratio `_get_main_contour` reports is nonnegative. -/
lemma getMainContour_snd_nonneg (f : Frame) : 0 ≤ (getMainContour f).2 := by
  unfold getMainContour
  cases largestContour f with
  | none => simp
  | some m =>
    simp only
    split_ifs with h
    · simp
    · exact aspectRatioOf_nonneg m

/-- A frame with a qualifying main contour is nonempty. -/
lemma ne_nil_of_getMainContour (f : Frame) (c : Contour)
    (h : (getMainContour f).1 = some c) : f ≠ [] := by
  intro hf
  rw [hf] at h
  simp [getMainContour, largestContour] at h

/-- The code's ratio-change expression equals the spec's phrasing of it:
zero exactly when the before ratio is zero. -/
lemma ratio_change_eq (fb fa : Frame) :
    (if (getMainContour fb).2 > 0 then
        |(getMainContour fa).2 - (getMainContour fb).2| / (getMainContour fb).2
      else 0) =
      (if (getMainContour fb).2 = 0 then 0
        else |(getMainContour fa).2 - (getMainContour fb).2| / (getMainContour fb).2) := by
  rcases eq_or_lt_of_le (getMainContour_snd_nonneg fb) with h | h
  · rw [if_neg (by rw [← h]; exact lt_irrefl 0), if_pos h.symm]
  · rw [if_pos h, if_neg h.ne']

/-- The spill scan is the filtered candidate count paired with the running
maximum of the candidate areas. -/
lemma spillScan_eq_general (config : AnalysisConfig) (b : Contour) :
    ∀ (cs : List Contour) (n : ℕ) (m : ℚ),
      cs.foldl
          (fun (st : ℕ × ℚ) c =>
            if isSpillCandidate config b c then
              (st.1 + 1, if c.area > st.2 then c.area else st.2)
            else st)
          (n, m)
        = (n + (cs.filter (fun c => isSpillCandidate config b c)).length,
           maxAreaFold (cs.filter (fun c => isSpillCandidate config b c)) m) := by
  intro cs
  induction cs with
  | nil => intro n m; simp [maxAreaFold]
  | cons c rest ih =>
    intro n m
    by_cases hc : isSpillCandidate config b c
    · simp only [List.foldl_cons, List.filter_cons, hc, if_pos, ih, maxAreaFold,
        List.length_cons, Prod.mk.injEq]
      exact ⟨by omega, trivial⟩
    · simp only [List.foldl_cons, List.filter_cons, hc, ih, maxAreaFold]
      simp [hc]

/-- `spillScan` via the filtered candidate list. -/
lemma spillScan_eq (config : AnalysisConfig) (b : Contour) (cs : List Contour) :
    spillScan config b cs
      = ((cs.filter (fun c => isSpillCandidate config b c)).length,
         maxAreaFold (cs.filter (fun c => isSpillCandidate config b c)) 0) := by
  simpa [spillScan] using spillScan_eq_general config b cs 0 0

/-- The running maximum never falls below its initial value. -/
lemma maxAreaFold_init_le (cs : List Contour) : ∀ init : ℚ, init ≤ maxAreaFold cs init := by
  induction cs with
  | nil => intro init; exact le_refl _
  | cons c rest ih =>
    intro init
    refine le_trans ?_ (ih (if c.area > init then c.area else init))
    split_ifs with h
    · exact le_of_lt h
    · exact le_refl _

/-- Every listed area is bounded by the running maximum. -/
lemma maxAreaFold_mem_le (cs : List Contour) :
    ∀ init : ℚ, ∀ c ∈ cs, c.area ≤ maxAreaFold cs init := by
  induction cs with
  | nil => intro init c hc; simp at hc
  | cons d rest ih =>
    intro init c hc
    rcases List.mem_cons.mp hc with h | h
    · subst h
      refine le_trans ?_ (maxAreaFold_init_le rest (if c.area > init then c.area else init))
      split_ifs with h'
      · exact le_refl _
      · exact le_of_not_lt h'
    · exact ih _ c h

/-- The running maximum is the initial value or one of the listed areas. -/
lemma maxAreaFold_eq_init_or_mem (cs : List Contour) :
    ∀ init : ℚ, maxAreaFold cs init = init ∨ ∃ c ∈ cs, maxAreaFold cs init = c.area := by
  induction cs with
  | nil => intro init; exact Or.inl rfl
  | cons d rest ih =>
    intro init
    have hstep : maxAreaFold (d :: rest) init
        = maxAreaFold rest (if d.area > init then d.area else init) := rfl
    rcases ih (if d.area > init then d.area else init) with h | ⟨c, hc, he⟩
    · rw [hstep, h]
      split_ifs with h'
      · exact Or.inr ⟨d, List.mem_cons_self d rest, rfl⟩
      · exact Or.inl rfl
    · exact Or.inr ⟨c, List.mem_cons_of_mem d hc, by rw [hstep, he]⟩

/-- Every push sequence leaves the last pushed frames, starting from any
queue of legal length. -/
lemma queuePushAll_eq {α : Type} (N : ℕ) (hN : 0 < N) :
    ∀ (xs q : List α), q.length ≤ N →
      queuePushAll N q xs = (q ++ xs).drop (q.length + xs.length - N) := by
  intro xs
  induction xs with
  | nil =>
    intro q hq
    simp [queuePushAll, Nat.sub_eq_zero_of_le hq]
  | cons y ys ih =>
    intro q hq
    have hstep : queuePushAll N q (y :: ys) = queuePushAll N (queuePush N q y) ys := by
      simp [queuePushAll]
    by_cases h : q.length < N
    · have hlen1 : (queuePush N q y).length ≤ N := by
        simp only [queuePush, if_pos h, List.length_append, List.length_cons,
          List.length_nil]
        omega

      rw [hstep, ih _ hlen1]
      simp only [queuePush, if_pos h, List.length_append, List.length_cons,
        List.length_nil, List.append_assoc, List.cons_append, List.nil_append]
      congr 1
      omega
    · have hqN : q.length = N := le_antisymm hq (not_lt.mp h)
      cases q with
      | nil =>
        exfalso
        rw [List.length_nil] at hqN
        omega
      | cons a q' =>
        have hq' : q'.length + 1 = N := by simpa using hqN
        have hpush : queuePush N (a :: q') y = q' ++ [y] := by
          unfold queuePush
          rw [if_neg h, List.drop_one, List.tail_cons]
        have hlen1 : (queuePush N (a :: q') y).length ≤ N := by
          rw [hpush]
          simp
          omega
        rw [hstep, ih _ hlen1, hpush]
        rw [show (q' ++ [y]).length + ys.length - N = ys.length from by simp; omega]
        rw [show (a :: q').length + (y :: ys).length - N = ys.length + 1 from by
          simp; omega]
        rw [List.append_assoc]
        rw [show ((a :: q') ++ y :: ys) = a :: (q' ++ y :: ys) from rfl]
        rw [List.drop_succ_cons]
        rfl

/-- Truncation of a nonnegative rational is nonnegative. -/
lemma pyInt_nonneg (q : ℚ) (h : 0 ≤ q) : 0 ≤ pyInt q := by
  unfold pyInt
  rw [if_neg (not_lt.mpr h)]
  exact Int.floor_nonneg.mpr h

/-- One pacing step never decreases the total written. -/
lemma pacingStep_total_le (fps : ℚ) (s : PacingState) (dt : ℚ) :
    s.total_written ≤ ((pacingStep fps s dt).1).total_written := by
  simp only [pacingStep]
  split_ifs <;> simp

/-- A pacing run never decreases the total written. -/
lemma pacingRun_total_le (fps : ℚ) :
    ∀ (dts : List ℚ) (s : PacingState),
      s.total_written
        ≤ (dts.foldl (fun s dt => (pacingStep fps s dt).1) s).total_written := by
  intro dts
  induction dts with
  | nil => intro s; exact le_refl _
  | cons d rest ih =>
    intro s
    exact le_trans (pacingStep_total_le fps s d) (ih _)

/-- The first pacing iteration always writes at least one frame. -/
lemma pacingStep_first_total (fps : ℚ) (hfps : 0 ≤ fps) (dt : ℚ) :
    1 ≤ ((pacingStep fps ⟨0, 0⟩ dt).1).total_written := by
  have haccum : (0 : ℚ) ≤ fps * max 0 dt := mul_nonneg hfps (le_max_left 0 dt)
  have hc : 0 ≤ pyInt (fps * max 0 dt) := pyInt_nonneg _ haccum
  simp only [pacingStep, zero_add]
  by_cases hz : pyInt (fps * max 0 dt) = 0
  · simp [hz]
  · have hpos : 0 < pyInt (fps * max 0 dt) := lt_of_le_of_ne hc (Ne.symm hz)
    simp [hz, hpos]
    omega

/-! Claim theorems. -/

/-- C4 counterexample: correcting FAIL to PASS on metric `deformation` with
recorded value 1/5 sets the deformation threshold to (1/5) * 1.1 = 11/50,
which is not the old threshold 3/20 multiplied by 1.10 (= 33/200): the
claim that the threshold is multiplied by 1.10 is false. -/
theorem override_multiplies_threshold_false :
    (overrideAdjust cfgDefault .FAIL .PASS (some "deformation")
        (some (1 / 5))).config.deformation_threshold = 11 / 50 ∧
    cfgDefault.deformation_threshold * (11 / 10) = 33 / 200 ∧
    (11 : ℚ) / 50 ≠ 33 / 200 := by
  refine ⟨?_, ?_, ?_⟩
  · simp only [overrideAdjust, cfgDefault]
    rw [if_neg (by decide)]
    norm_num
  · simp only [cfgDefault]
    norm_num
  · norm_num

/-- C4 (amended): on an override disagreeing with the verdict, the threshold
associated with a recognized metric is SET TO the recorded metric value
scaled by 1.10 (FAIL corrected to PASS) or 0.90 (PASS corrected to FAIL),
and the config is saved; nothing changes and nothing is saved when the
metric is absent or unrecognized or the value is absent. -/
theorem override_adjust_sets_value_scaled (config : AnalysisConfig) (v : ℚ) (m : String)
    (r c : Verdict)
    (hm : m ≠ "deformation" ∧ m ≠ "spill_area" ∧ m ≠ "shatter_ratio") :
    overrideAdjust config .FAIL .PASS (some "deformation") (some v)
      = ⟨{ config with deformation_threshold := v * (11 / 10) }, true⟩ ∧
    overrideAdjust config .FAIL .PASS (some "spill_area") (some v)
      = ⟨{ config with spill_min_area := v * (11 / 10) }, true⟩ ∧
    overrideAdjust config .FAIL .PASS (some "shatter_ratio") (some v)
      = ⟨{ config with shatter_contour_increase_ratio := v * (11 / 10) }, true⟩ ∧
    overrideAdjust config .PASS .FAIL (some "deformation") (some v)
      = ⟨{ config with deformation_threshold := v * (9 / 10) }, true⟩ ∧
    overrideAdjust config .PASS .FAIL (some "spill_area") (some v)
      = ⟨{ config with spill_min_area := v * (9 / 10) }, true⟩ ∧
    overrideAdjust config .PASS .FAIL (some "shatter_ratio") (some v)
      = ⟨{ config with shatter_contour_increase_ratio := v * (9 / 10) }, true⟩ ∧
    overrideAdjust config r c none (some v) = ⟨config, false⟩ ∧
    overrideAdjust config r c (some m) none = ⟨config, false⟩ ∧
    overrideAdjust config r c (some m) (some v) = ⟨config, false⟩ := by
  obtain ⟨h1, h2, h3⟩ := hm
  refine ⟨?_, ?_, ?_, ?_, ?_, ?_, ?_, ?_, ?_⟩
  · simp [overrideAdjust]
  · simp [overrideAdjust]
  · simp [overrideAdjust]
  · simp [overrideAdjust]
  · simp [overrideAdjust]
  · simp [overrideAdjust]
  · rfl
  · rfl
  · simp only [overrideAdjust]
    split_ifs <;> simp_all

/-- C4 witness: the amended theorem instantiated at the default config,
value 1/5 and the unrecognized metric name "bogus". -/
theorem override_adjust_sets_value_scaled_witness :
    overrideAdjust cfgDefault .FAIL .PASS (some "spill_area") (some (1 / 5))
      = ⟨{ cfgDefault with spill_min_area := (1 / 5) * (11 / 10) }, true⟩ ∧
    overrideAdjust cfgDefault .PASS .FAIL (some "bogus") (some (1 / 5))
      = ⟨cfgDefault, false⟩ := by
  have h := override_adjust_sets_value_scaled cfgDefault (1 / 5) "bogus" .PASS .FAIL
    (by refine ⟨?_, ?_, ?_⟩ <;> decide)
  exact ⟨h.2.1, h.2.2.2.2.2.2.2.2⟩

/-- C9 counterexample: with the primary config file missing and a valid
backup holding only the deformation threshold, load returns the backup
dict verbatim, with the other three keys absent — the claim that every
returned config contains all four threshold keys is false. -/
theorem config_load_backfill_false :
    (load_analysis_config .missing (.valid backupCE)).1 = backupCE ∧
    (load_analysis_config .missing (.valid backupCE)).1.spill_min_area = none ∧
    (load_analysis_config .missing (.valid backupCE)).1.shatter_contour_increase_ratio
      = none ∧
    (load_analysis_config .missing (.valid backupCE)).1.shatter_min_contour_count
      = none :=
  ⟨rfl, rfl, rfl, rfl⟩

/-- C9 (amended): load returns the backup file's configuration verbatim
(also rewriting both files from it) when the primary file is missing and a
valid backup exists — without backfilling absent keys; it returns the
built-in defaults (and creates the files) when both are missing; and when
the primary file is present and valid, absent keys are backfilled with
their defaults, so that path returns all four threshold keys. -/
theorem config_load_spec (d : ConfigDict) (pb : FileState) :
    load_analysis_config .missing (.valid d) = (d, some d) ∧
    load_analysis_config .missing .missing = (defaultsDict, some defaultsDict) ∧
    load_analysis_config (.valid d) pb = (backfill d, none) ∧
    (backfill d).deformation_threshold.isSome = true ∧
    (backfill d).spill_min_area.isSome = true ∧
    (backfill d).shatter_contour_increase_ratio.isSome = true ∧
    (backfill d).shatter_min_contour_count.isSome = true ∧
    defaultsDict.deformation_threshold.isSome = true ∧
    defaultsDict.spill_min_area.isSome = true ∧
    defaultsDict.shatter_contour_increase_ratio.isSome = true ∧
    defaultsDict.shatter_min_contour_count.isSome = true :=
  ⟨rfl, rfl, rfl, rfl, rfl, rfl, rfl, rfl, rfl, rfl, rfl⟩

/-- C5 counterexample: at 30 fps, a first iteration with delta 1/100 forces
one frame and leaves the accumulator at -7/10; on the next iteration (delta
1/100 again) the accumulator is -2/5, whose floor is -1, yet 0 copies are
written and the accumulator is not decremented — the claim that the count
written equals the floor of the accumulator is false beyond the first
iteration. -/
theorem pacing_count_floor_false :
    (pacingStep 30 ⟨0, 0⟩ (1 / 100)).1 = ⟨-7 / 10, 1⟩ ∧
    (pacingStep 30 ⟨-7 / 10, 1⟩ (1 / 100)).2 = 0 ∧
    (pacingStep 30 ⟨-7 / 10, 1⟩ (1 / 100)).1.write_accum = -2 / 5 ∧
    Int.floor ((-7 : ℚ) / 10 + 30 * (1 / 100)) = -1 ∧
    ((pacingStep 30 ⟨-7 / 10, 1⟩ (1 / 100)).2 : ℤ)
      ≠ Int.floor ((-7 : ℚ) / 10 + 30 * (1 / 100)) := by
  have h1 : (pacingStep 30 (⟨0, 0⟩ : PacingState) (1 / 100)).1 = ⟨-7 / 10, 1⟩ := by
    simp only [pacingStep, pyInt]
    norm_num
  have h2 : (pacingStep 30 (⟨-7 / 10, 1⟩ : PacingState) (1 / 100)).2 = 0 := by
    simp only [pacingStep, pyInt]
    norm_num
  have h3 : (pacingStep 30 (⟨-7 / 10, 1⟩ : PacingState) (1 / 100)).1.write_accum
      = -2 / 5 := by
    simp only [pacingStep, pyInt]
    norm_num
  have h4 : Int.floor ((-7 : ℚ) / 10 + 30 * (1 / 100)) = -1 := by norm_num
  refine ⟨h1, h2, h3, h4, ?_⟩
  rw [h2, h4]
  norm_num

/-- C5 (amended): per iteration the copies written equal the truncation
toward zero of the updated accumulator when that truncation is positive
(it is then also subtracted from the accumulator); a non-positive
truncation writes nothing and leaves the accumulator unchanged, except
that the very first write is forced to a single copy when the truncation
is zero; and a session that processes at least one composite frame writes
at least one frame in total. -/
theorem pacing_step_spec (fps : ℚ) (s : PacingState) (dt : ℚ) (dts : List ℚ)
    (hfps : 0 ≤ fps) (hdts : dts ≠ []) :
    (s.total_written = 0 → pyInt (s.write_accum + fps * max 0 dt) = 0 →
      pacingStep fps s dt = (⟨s.write_accum + fps * max 0 dt - 1, 1⟩, 1)) ∧
    (0 < pyInt (s.write_accum + fps * max 0 dt) →
      pacingStep fps s dt
        = (⟨s.write_accum + fps * max 0 dt
              - ((pyInt (s.write_accum + fps * max 0 dt) : ℤ) : ℚ),
            s.total_written + (pyInt (s.write_accum + fps * max 0 dt)).toNat⟩,
           (pyInt (s.write_accum + fps * max 0 dt)).toNat)) ∧
    (¬(s.total_written = 0 ∧ pyInt (s.write_accum + fps * max 0 dt) = 0) →
      pyInt (s.write_accum + fps * max 0 dt) ≤ 0 →
      pacingStep fps s dt = (⟨s.write_accum + fps * max 0 dt, s.total_written⟩, 0)) ∧
    1 ≤ (pacingRun fps dts).total_written := by
  refine ⟨?_, ?_, ?_, ?_⟩
  · intro h0 hz
    simp only [pacingStep, h0, hz, and_self, if_pos]
    norm_num
  · intro hpos
    have hne : ¬(s.total_written = 0 ∧ pyInt (s.write_accum + fps * max 0 dt) = 0) := by
      intro hcontra
      omega
    simp only [pacingStep, if_neg hne]
    rw [if_pos hpos]
  · intro hne hle
    simp only [pacingStep, if_neg hne]
    rw [if_neg (not_lt.mpr hle)]
  · cases dts with
    | nil => exact absurd rfl hdts
    | cons d rest =>
      have hfirst := pacingStep_first_total fps hfps d
      have hrun := pacingRun_total_le fps rest ((pacingStep fps ⟨0, 0⟩ d).1)
      simp only [pacingRun, List.foldl_cons]
      omega

/-- C5 witness: the amended theorem instantiated at 30 fps, the initial
state, a 1/10-second delta and the one-delta session, whose second
conjunct computes the step and whose final conjunct gives the never-empty
guarantee. -/
theorem pacing_step_spec_witness :
    pacingStep 30 ⟨0, 0⟩ (1 / 10) = (⟨0, 3⟩, 3) ∧
    1 ≤ (pacingRun 30 [1 / 10]).total_written := by
  have h := pacing_step_spec 30 ⟨0, 0⟩ (1 / 10) [1 / 10] (by norm_num)
    (by simp)
  have hc : pyInt ((⟨0, 0⟩ : PacingState).write_accum + 30 * max 0 (1 / 10)) = 3 := by
    simp only [pyInt]
    norm_num
  have h2 := h.2.1 (by rw [hc]; norm_num)
  refine ⟨?_, h.2.2.2⟩
  rw [h2, hc]
  norm_num
  rfl

/-- C6: the frame queue obeys the drop-oldest law — a push on a full queue
removes exactly the oldest element before inserting, a push sequence
longer than the capacity leaves exactly the last N pushed frames in push
order, and the producer always completes its push. -/
theorem frame_queue_drop_oldest (α : Type) (N : ℕ) (xs q : List α) (x : α)
    (hN : 0 < N) (hlen : N < xs.length) (hq : q.length = N) :
    queuePushAll N ([] : List α) xs = xs.drop (xs.length - N) ∧
    (queuePushAll N ([] : List α) xs).length = N ∧
    queuePush N q x = q.drop 1 ++ [x] := by
  have hmain := queuePushAll_eq N hN xs ([] : List α) (by simp)
  simp only [List.length_nil, List.nil_append, Nat.zero_add] at hmain
  refine ⟨hmain, ?_, ?_⟩
  · rw [hmain, List.length_drop]
    omega
  · unfold queuePush
    rw [if_neg (by omega)]

/-- C6 witness: capacity 3, five pushed frames — the settled queue is
exactly the last three frames, and a push on the full queue [1, 2, 3]
evicts 1. -/
theorem frame_queue_drop_oldest_witness :
    queuePushAll 3 ([] : List ℕ) [10, 20, 30, 40, 50] = [30, 40, 50] ∧
    (queuePushAll 3 ([] : List ℕ) [10, 20, 30, 40, 50]).length = 3 ∧
    queuePush 3 [1, 2, 3] 7 = [2, 3, 7] := by
  have h := frame_queue_drop_oldest ℕ 3 [10, 20, 30, 40, 50] [1, 2, 3] 7
    (by norm_num) (by simp) (by simp)
  refine ⟨?_, h.2.1, ?_⟩
  · rw [h.1]
    rfl
  · rw [h.2.2]
    rfl

/-- C7 counterexample: on the 8-frame synthetic clip with stride 1, refine
window 2, ignore-edge 2 and offset 3, the detected peak is 3 and the
locator returns the frames at indices 0 and 6 (frames are their own
indices here).  The claim predicts clamping to the scannable range
[2, 5] — before frame at max(2, 0) = 2 and after frame at min(5, 6) = 5 —
but the code clamps to the full clip range [0, 7]. -/
theorem impact_frames_scan_clamp_false :
    findPeak (some clipCE) 1 2 2 = .ok 3 ∧
    pick_impact_frames (some clipCE) 1 2 2 3 = .ok (0, 6) ∧
    max (max 1 2) (3 - 3) = 2 ∧
    min (max (max 1 2 + 1) (clipCE.total - 1 - 2)) (3 + 3) = 5 ∧
    ((0 : ℕ) ≠ 2 ∧ (6 : ℕ) ≠ 5) := by
  have hr1 : pyRangeIncl 2 5 1 = [2, 3, 4, 5] := by decide
  have hr2 : pyRangeIncl 1 5 1 = [1, 2, 3, 4, 5] := by decide
  have hpeak : findPeak (some clipCE) 1 2 2 = .ok 3 := by
    simp only [findPeak, clipCE, initPrev]
    norm_num [hr1, hr2, scanStep, clipCE]
  refine ⟨hpeak, ?_, by decide, by decide, by decide, by decide⟩
  simp only [pick_impact_frames, hpeak]
  norm_num [clipCE]

/-- C7 (amended): for every clip accepted by the locator and detected peak,
the before frame is read at index max(0, peak − offset) and the after
frame at min(total − 1, peak + offset) — the clamping is to the full clip
bounds, not to the edge-ignored scannable range. -/
theorem impact_frames_clip_clamp (φ γ : Type) (v : VideoModel φ γ)
    (stride win edge off peak : ℕ) (fbv fav : φ)
    (hp : findPeak (some v) stride win edge = .ok peak)
    (hbr : v.read (peak - off) = some fbv)
    (har : v.read (min (v.total - 1) (peak + off)) = some fav) :
    pick_impact_frames (some v) stride win edge off = .ok (fbv, fav) := by
  simp only [pick_impact_frames, hp, hbr, har]

/-- C7 witness: the amended theorem instantiated on the synthetic clip,
whose peak is 3 and whose endpoint reads succeed at indices 0 and 6. -/
theorem impact_frames_clip_clamp_witness :
    pick_impact_frames (some clipCE) 1 2 2 3 = .ok (0, 6) := by
  have hr1 : pyRangeIncl 2 5 1 = [2, 3, 4, 5] := by decide
  have hr2 : pyRangeIncl 1 5 1 = [1, 2, 3, 4, 5] := by decide
  refine impact_frames_clip_clamp ℕ ℕ clipCE 1 2 2 3 3 0 6 ?_ ?_ ?_
  · simp only [findPeak, clipCE, initPrev]
    norm_num [hr1, hr2, scanStep, clipCE]
  · decide
  · decide

/-- C8: the impact locate operation signals an error instead of returning a
frame pair when the container cannot be opened, when the clip has at most
2 frames, and when every read of the coarse pass fails (the seed frame is
then null and the grayscale conversion raises). -/
theorem impact_locator_failure_modes (φ γ : Type) (v : VideoModel φ γ)
    (stride win edge off : ℕ) :
    pick_impact_frames (none : Option (VideoModel φ γ)) stride win edge off
      = .error "Cannot open video" ∧
    (v.total ≤ 2 →
      pick_impact_frames (some v) stride win edge off = .error "Video too short") ∧
    (2 < v.total → (∀ i, v.read i = none) →
      pick_impact_frames (some v) stride win edge off
        = .error "cvtColor failed on null frame") := by
  refine ⟨rfl, ?_, ?_⟩
  · intro h
    simp only [pick_impact_frames, findPeak, if_pos h]
  · intro h2 hnone
    have hguard : ¬ v.total ≤ 2 := by omega
    simp only [pick_impact_frames, findPeak, if_neg hguard, initPrev, hnone]

/-- C8 witness: the theorem instantiated on a 2-frame clip, on a 10-frame
clip whose every read fails, and on an unopenable container. -/
theorem impact_locator_failure_modes_witness :
    pick_impact_frames (none : Option (VideoModel ℕ ℕ)) 3 30 10 12
      = .error "Cannot open video" ∧
    pick_impact_frames (some clipShort) 3 30 10 12 = .error "Video too short" ∧
    pick_impact_frames (some clipBlank) 3 30 10 12
      = .error "cvtColor failed on null frame" := by
  have h1 := impact_locator_failure_modes ℕ ℕ clipShort 3 30 10 12
  have h2 := impact_locator_failure_modes ℕ ℕ clipBlank 3 30 10 12
  exact ⟨h1.1, h1.2.1 (by decide), h2.2.2 (by decide) (fun i => rfl)⟩

/-- C2: with a qualifying main contour in both frames, the ratio change is
|after − before| / before (0 when the before ratio is 0), and when it
strictly exceeds the deformation threshold the result is exactly the
FAIL record with metric `deformation` and value the ratio change —
returned without consulting the spill conditions. -/
theorem deformation_immediate_fail (fb fa : Frame) (config : AnalysisConfig)
    (cb ca : Contour) (rc : ℚ)
    (hb : (getMainContour fb).1 = some cb) (ha : (getMainContour fa).1 = some ca)
    (hrc : rc = if (getMainContour fb).2 = 0 then 0
        else |(getMainContour fa).2 - (getMainContour fb).2| / (getMainContour fb).2)
    (hgt : rc > config.deformation_threshold) :
    analyze_deformation fb fa config = ⟨.FAIL, some "deformation", some rc⟩ := by
  have hcode : (if (getMainContour fb).2 > 0 then
      |(getMainContour fa).2 - (getMainContour fb).2| / (getMainContour fb).2 else 0)
      = rc := by
    rw [ratio_change_eq fb fa, ← hrc]
  simp only [analyze_deformation, hb, ha]
  rw [hcode, if_pos hgt]

/-- C2 witness: the theorem applied to the 10-by-10 before bottle and the
12-by-10 after bottle, a 20 percent ratio change above the default 15
percent threshold. -/
theorem deformation_immediate_fail_witness :
    analyze_deformation fbEx faDef cfgDefault
      = ⟨.FAIL, some "deformation", some (1 / 5)⟩ := by
  refine deformation_immediate_fail fbEx faDef cfgDefault contourMainB contourDefA
    (1 / 5) ?_ ?_ ?_ ?_
  · norm_num [getMainContour, largestContour, fbEx, contourMainB]
  · norm_num [getMainContour, largestContour, faDef, contourDefA]
  · norm_num [getMainContour, largestContour, aspectRatioOf, fbEx, faDef,
      contourMainB, contourDefA]
    rw [abs_of_pos (by norm_num : (0 : ℚ) < 1 / 5)]
  · norm_num [cfgDefault]

/-- C10: the shatter pipeline reports ERROR exactly when the before frame
has no qualifying bottle contour; an after frame with no above-noise
contour never gives ERROR — with the configured minimum contour count
positive (the shipped value is 5 and the feedback loop never changes it),
it gives PASS with metric `shatter_ratio` and ratio value 0. -/
theorem shatter_error_only_before (fb fa : Frame) (config : AnalysisConfig) :
    ((analyze_shatter fb fa config).result = .ERROR ↔ (getMainContour fb).1 = none) ∧
    ((getMainContour fb).1 ≠ none → filteredContours fa = [] →
      0 < config.shatter_min_contour_count →
      analyze_shatter fb fa config = ⟨.PASS, some "shatter_ratio", some 0⟩) := by
  constructor
  · cases hcb : (getMainContour fb).1 with
    | none => simp [analyze_shatter, hcb]
    | some c =>
      simp only [analyze_shatter, hcb]
      split_ifs <;> simp
  · intro hb hfa hmin
    obtain ⟨c, hcb⟩ := Option.ne_none_iff_exists'.mp hb
    simp only [analyze_shatter, hcb, hfa, List.length_nil, Nat.cast_zero]
    rw [if_neg ?hcond, zero_div]
    case hcond =>
      rintro ⟨-, hge⟩
      exact absurd hge (not_le.mpr hmin)

/-- C10 witness: the PASS branch of the theorem at a concrete bottle frame,
an empty after frame and the default config. -/
theorem shatter_error_only_before_witness :
    analyze_shatter fbEx [] cfgDefault = ⟨.PASS, some "shatter_ratio", some 0⟩ := by
  refine (shatter_error_only_before fbEx [] cfgDefault).2 ?_ rfl ?_
  · norm_num [getMainContour, largestContour, fbEx, contourMainB]
    simp
  · norm_num [cfgDefault]

/-- C1: for non-null frames dispatched to the shatter pipeline (material
neither Plastic nor Steel) with a bottle contour in the before frame, the
verdict is FAIL iff after_count / max(before_count, 1) strictly exceeds
the configured increase-ratio threshold and the after count reaches the
configured minimum; in both the FAIL and the PASS case the metric is
`shatter_ratio` and the value is that ratio. -/
theorem shatter_verdict_iff (fb fa : Frame) (m : String) (config : AnalysisConfig)
    (ratio : ℚ)
    (hm : m ≠ "Plastic" ∧ m ≠ "Steel")
    (hb : (getMainContour fb).1 ≠ none)
    (hr : ratio = ((filteredContours fa).length : ℚ)
        / (((filteredContours fb).length.max 1 : ℕ) : ℚ)) :
    ((analyze_bottle (some fb) (some fa) m config).result = .FAIL ↔
      (ratio > config.shatter_contour_increase_ratio ∧
        ((filteredContours fa).length : ℚ) ≥ config.shatter_min_contour_count)) ∧
    (analyze_bottle (some fb) (some fa) m config).metric = some "shatter_ratio" ∧
    (analyze_bottle (some fb) (some fa) m config).value = some ratio ∧
    ((analyze_bottle (some fb) (some fa) m config).result = .PASS ∨
      (analyze_bottle (some fb) (some fa) m config).result = .FAIL) := by
  obtain ⟨c, hcb⟩ := Option.ne_none_iff_exists'.mp hb
  have hbot : analyze_bottle (some fb) (some fa) m config
      = analyze_shatter fb fa config := by
    simp [analyze_bottle, hm.1, hm.2]
  have hmax : (if (filteredContours fb).length = 0 then 1
      else (filteredContours fb).length) = (filteredContours fb).length.max 1 := by
    rcases Nat.eq_zero_or_pos (filteredContours fb).length with h | h
    · simp [h]
    · rw [if_neg (by omega)]
      exact (Nat.max_eq_left h).symm
  rw [hbot]
  simp only [analyze_shatter, hcb]
  rw [hmax, ← hr]
  split_ifs with hcond
  · exact ⟨⟨fun _ => hcond, fun _ => rfl⟩, rfl, rfl, Or.inr rfl⟩
  · exact ⟨⟨fun hcontra => absurd hcontra (by simp), fun hcl => absurd hcl hcond⟩,
      rfl, rfl, Or.inl rfl⟩

/-- C1 witness: the theorem at a concrete bottle frame, an empty after
frame, material Glass and the default config (a PASS case with ratio 0). -/
theorem shatter_verdict_iff_witness :
    ((analyze_bottle (some fbEx) (some ([] : Frame)) "Glass" cfgDefault).result = .FAIL ↔
      ((0 : ℚ) > cfgDefault.shatter_contour_increase_ratio ∧
        ((filteredContours ([] : Frame)).length : ℚ)
          ≥ cfgDefault.shatter_min_contour_count)) ∧
    (analyze_bottle (some fbEx) (some ([] : Frame)) "Glass" cfgDefault).metric
      = some "shatter_ratio" ∧
    (analyze_bottle (some fbEx) (some ([] : Frame)) "Glass" cfgDefault).value
      = some 0 ∧
    ((analyze_bottle (some fbEx) (some ([] : Frame)) "Glass" cfgDefault).result
        = .PASS ∨
      (analyze_bottle (some fbEx) (some ([] : Frame)) "Glass" cfgDefault).result
        = .FAIL) := by
  refine shatter_verdict_iff fbEx [] "Glass" cfgDefault 0 ⟨by decide, by decide⟩ ?_ ?_
  · norm_num [getMainContour, largestContour, fbEx, contourMainB]
    simp
  · norm_num [filteredContours]

/-- C3: reached with the ratio change within the deformation threshold, a
contour of the after frame is a spill candidate exactly when it is not
structurally the bottle's own contour, its area lies strictly between the
spill noise floor and half the bottle's area, and its top edge lies below
60 percent of the bottle's vertical extent; with at least one candidate
the result is the FAIL record with metric `spill_area` and value the area
of a largest candidate, and with none it is the PASS record with metric
`deformation` and value the ratio change. -/
theorem deformation_spill_check (fb fa : Frame) (config : AnalysisConfig)
    (cb ca : Contour) (rc : ℚ) (cands : List Contour)
    (hb : (getMainContour fb).1 = some cb) (ha : (getMainContour fa).1 = some ca)
    (hrc : rc = if (getMainContour fb).2 = 0 then 0
        else |(getMainContour fa).2 - (getMainContour fb).2| / (getMainContour fb).2)
    (hle : ¬ rc > config.deformation_threshold)
    (hval : ∀ c ∈ fa, 0 ≤ c.area)
    (hcands : cands = fa.filter (fun c => isSpillCandidate config ca c)) :
    (∀ c ∈ fa, (c ∈ cands ↔
      (¬ c.pts = ca.pts ∧ config.spill_min_area < c.area ∧
        c.area < ca.area * (1 / 2) ∧
        (ca.rect.y : ℚ) + (ca.rect.h : ℚ) * (6 / 10) < (c.rect.y : ℚ)))) ∧
    (cands ≠ [] → ∃ c, c ∈ cands ∧
      analyze_deformation fb fa config = ⟨.FAIL, some "spill_area", some c.area⟩ ∧
      ∀ cc ∈ cands, cc.area ≤ c.area) ∧
    (cands = [] →
      analyze_deformation fb fa config = ⟨.PASS, some "deformation", some rc⟩) := by
  have hcode : (if (getMainContour fb).2 > 0 then
      |(getMainContour fa).2 - (getMainContour fb).2| / (getMainContour fb).2 else 0)
      = rc := by
    rw [ratio_change_eq fb fa, ← hrc]
  have hfane : fa ≠ [] := ne_nil_of_getMainContour fa ca ha
  have heval : analyze_deformation fb fa config =
      (if (spillScan config ca fa).1 > 0 then
        ⟨.FAIL, some "spill_area", some (spillScan config ca fa).2⟩
      else ⟨.PASS, some "deformation", some rc⟩) := by
    simp only [analyze_deformation, hb, ha]
    rw [hcode, if_neg hle, if_neg hfane]
  have hscan : spillScan config ca fa = (cands.length, maxAreaFold cands 0) := by
    rw [spillScan_eq config ca fa, ← hcands]
  have hval' : ∀ c ∈ cands, 0 ≤ c.area := by
    intro c hc
    rw [hcands] at hc
    exact hval c (List.mem_filter.mp hc).1
  refine ⟨?_, ?_, ?_⟩
  · intro c hcfa
    rw [hcands]
    simp only [List.mem_filter, hcfa, true_and, isSpillCandidate, Bool.and_eq_true,
      Bool.not_eq_true', decide_eq_true_eq, decide_eq_false_iff_not, gt_iff_lt]
    tauto
  · intro hne
    have hlen : 0 < cands.length := List.length_pos.mpr hne
    have hres : analyze_deformation fb fa config
        = ⟨.FAIL, some "spill_area", some (maxAreaFold cands 0)⟩ := by
      rw [heval, hscan]
      simp only [gt_iff_lt]
      rw [if_pos hlen]
    rcases maxAreaFold_eq_init_or_mem cands 0 with h0 | ⟨c, hc, he⟩
    · obtain ⟨c, hc⟩ := List.exists_mem_of_ne_nil cands hne
      have hle0 : c.area ≤ 0 := h0 ▸ maxAreaFold_mem_le cands 0 c hc
      have hzero : c.area = 0 := le_antisymm hle0 (hval' c hc)
      refine ⟨c, hc, ?_, ?_⟩
      · rw [hres, h0, ← hzero]
      · intro cc hcc
        have := maxAreaFold_mem_le cands 0 cc hcc
        rw [h0] at this
        rw [hzero]
        exact this
    · refine ⟨c, hc, by rw [hres, he], ?_⟩
      intro cc hcc
      rw [← he]
      exact maxAreaFold_mem_le cands 0 cc hcc
  · intro hnil
    rw [heval, hscan, hnil]
    simp

/-- C3 witness: the spill branch of the theorem on the bottle-plus-puddle
after frame — the puddle (area 450) is the unique candidate and drives the
FAIL record. -/
theorem deformation_spill_check_witness :
    ∃ c, c ∈ [contourSpill] ∧
      analyze_deformation fbEx faSp cfgDefault
        = ⟨.FAIL, some "spill_area", some c.area⟩ ∧
      ∀ cc ∈ [contourSpill], cc.area ≤ c.area := by
  have h := deformation_spill_check fbEx faSp cfgDefault contourMainB contourMainA
    0 [contourSpill] ?_ ?_ ?_ ?_ ?_ ?_
  · exact h.2.1 (by simp)
  · norm_num [getMainContour, largestContour, fbEx, contourMainB]
  · norm_num [getMainContour, largestContour, faSp, contourMainA, contourSpill]
  · norm_num [getMainContour, largestContour, aspectRatioOf, fbEx, faSp,
      contourMainB, contourMainA, contourSpill]
  · norm_num [cfgDefault]
  · intro c hc
    rcases List.mem_cons.mp hc with h1 | h1
    · rw [h1]; norm_num [contourMainA]
    · have h2 : c = contourSpill := by simpa [faSp] using h1
      rw [h2]; norm_num [contourSpill]
  · norm_num [faSp, List.filter, isSpillCandidate, contourMainA, contourSpill,
      cfgDefault]

end DropTester
